import Mathlib

/-!
# Verification of the Session Process Engine (`src/server/lib/claude.ts`)

Shallow embedding of `ClaudeProcessManager` from the claude-code-manager
repository: the incremental line parser (`onData` buffer handling), the
ANSI cleaning step, the stream-event classifier (`processStreamEvent`),
and the session lifecycle operations (`startSession`, `sendMessage`,
`stopSession`, `getSession`, `getAllSessions`, `cleanup`).

Conventions of the embedding:
* Byte/text data is `List Char`.
* `nanoid()` is modelled as a fresh-identifier counter (`nextId : Nat`);
  each call returns the current counter value and increments it.  Ids are
  therefore `Nat` (distinct counter values model distinct nanoids).
* The JS `Map<string, ProcessInfo>` is an association list in insertion
  order; `Map.get` is first-match lookup, `Map.delete` removes the key.
* Spawned OS processes are modelled by pids recorded in a `live` list;
  `kill()` removes a pid.  Asynchronous `onData` / `onExit` callbacks are
  modelled as explicit functions (`handleData`, `handleExit`) invoked by
  the environment after `sendMessage` returns.
* Emitted `EventEmitter` events and process actions are collected in an
  ordered trace (`List Act`).
-/

/-- The buffer splitter of the `onData` handler
(`claude.ts` lines 110–111): `buffer.split("\n")` where the last element
(`lines.pop()`) becomes the new buffer and the preceding elements are the
complete lines.  Defined recursively over the characters. -/
def splitLines : List Char → List (List Char) × List Char
  | [] => ([], [])
  | c :: cs =>
    if c = '\n' then ([] :: (splitLines cs).1, (splitLines cs).2)
    else
      match (splitLines cs).1 with
      | [] => ([], c :: (splitLines cs).2)
      | l :: ls => ((c :: l) :: ls, (splitLines cs).2)

/-- Feeding a sequence of chunks through the parser one at a time,
starting from buffer `buf`: each step appends the chunk to the buffer,
splits off the complete lines and keeps the remainder
(`claude.ts` lines 107–111 executed once per `onData` callback). -/
def feedChunks : List Char → List (List Char) → List (List Char) × List Char
  | buf, [] => ([], buf)
  | buf, chunk :: rest =>
    let (ls, r) := splitLines (buf ++ chunk)
    let (ls', r') := feedChunks r rest
    (ls ++ ls', r')

theorem splitLines_snd_no_nl (l : List Char) : '\n' ∉ (splitLines l).2 := by
  induction l with
  | nil => simp [splitLines]
  | cons c cs ih =>
    by_cases hc : c = '\n'
    · simpa [splitLines, hc] using ih
    · rcases h1 : (splitLines cs).1 with _ | ⟨m, ms⟩
      · simp only [splitLines, if_neg hc, h1]
        intro hmem
        rcases List.mem_cons.1 hmem with h | h
        · exact hc h.symm
        · exact ih h
      · simpa [splitLines, hc, h1] using ih

theorem splitLines_eq_of_no_nl (l : List Char) (h : '\n' ∉ l) :
    splitLines l = ([], l) := by
  induction l with
  | nil => simp [splitLines]
  | cons c cs ih =>
    have hc : ¬ c = '\n' := fun hc => h (hc ▸ List.mem_cons_self c cs)
    have hcs : '\n' ∉ cs := fun hm => h (List.mem_cons_of_mem c hm)
    simp [splitLines, hc, ih hcs]

theorem splitLines_append (x y : List Char) :
    splitLines (x ++ y) =
      ((splitLines x).1 ++ (splitLines ((splitLines x).2 ++ y)).1,
       (splitLines ((splitLines x).2 ++ y)).2) := by
  induction x with
  | nil => simp [splitLines]
  | cons c cs ih =>
    by_cases hc : c = '\n'
    · simp only [List.cons_append, splitLines, if_pos hc, ih]
      simp [ih]
    · simp only [List.cons_append, splitLines, if_neg hc, ih]
      rcases h1 : (splitLines cs).1 with _ | ⟨l, ls⟩
      · rcases h2 : (splitLines ((splitLines cs).2 ++ y)).1 with _ | ⟨m, ms⟩
        · simp [splitLines, h1, h2, hc, ih]
        · simp [splitLines, h1, h2, hc, ih]
      · simp [splitLines, h1, hc, ih]

theorem feedChunks_eq_splitLines (buf : List Char) (chunks : List (List Char))
    (hbuf : '\n' ∉ buf) :
    feedChunks buf chunks = splitLines (buf ++ chunks.flatten) := by
  induction chunks generalizing buf with
  | nil =>
    simp [feedChunks, splitLines_eq_of_no_nl buf hbuf]
  | cons chunk rest ih =>
    simp only [feedChunks, List.flatten_cons, ← List.append_assoc]
    rw [ih (splitLines (buf ++ chunk)).2 (splitLines_snd_no_nl _),
      splitLines_append (buf ++ chunk) rest.flatten]

/-- **C3.** Chunk-boundary invariance: for every byte sequence and every
way of splitting it into chunks, feeding the chunks to the line parser one
at a time (accumulate into buffer, split on newline, keep the trailing
fragment as the new buffer) yields the same ordered sequence of complete
lines — and the same final buffer — as feeding the whole concatenation at
once. -/
theorem chunk_boundary_invariance (chunks : List (List Char)) :
    feedChunks [] chunks = splitLines chunks.flatten := by
  simpa using feedChunks_eq_splitLines [] chunks (by simp)

/-! ## ANSI cleaning and trimming (`claude.ts` lines 114–116) -/

/-- Characters matched by `[0-9;]` in the regex `/\x1b\[[0-9;]*m/g`. -/
def isParamChar (c : Char) : Bool := c.isDigit || c = ';'

/-- Scan `[0-9;]*m` after `ESC [`: returns the tail after the final `m`
when the regex alternative matches, `none` otherwise. -/
def scanSgr : List Char → Option (List Char)
  | [] => none
  | c :: cs => if c = 'm' then some cs else if isParamChar c then scanSgr cs else none

/-- The length of the regex match `ESC [ [0-9;]* m` at the head of the
input, when there is one. -/
def sgrMatch : List Char → Option Nat
  | '\x1b' :: '[' :: rest => (scanSgr rest).map (fun after => rest.length + 2 - after.length)
  | _ => none

/-- Scanner for `replace(/\x1b\[[0-9;]*m/g, "")`: `skip` counts characters
of a recognized match still to be dropped; at `skip = 0` a match starting
at the current character is recognized and dropped whole, any other
character is kept.  Matches of this regex can never overlap (their
interior has no `ESC`), so dropping each locally-recognized match equals
the regex engine's left-to-right global replacement. -/
def stripGo : Nat → List Char → List Char
  | _ + 1, [] => []
  | skip + 1, _ :: cs => stripGo skip cs
  | 0, [] => []
  | 0, c :: cs =>
    match sgrMatch (c :: cs) with
    | some len => stripGo (len - 1) cs
    | none => c :: stripGo 0 cs

/-- `trimmedLine.replace(/\x1b\[[0-9;]*m/g, "")`: remove every ANSI
sequence of the shape `ESC [ <digits/semicolons> m`. -/
def stripAnsi (l : List Char) : List Char := stripGo 0 l

/-- ASCII whitespace removed by JavaScript `String.prototype.trim`
(the non-ASCII whitespace code points never occur in the inputs of
interest). -/
def isJsSpace (c : Char) : Bool :=
  c = ' ' || c = '\t' || c = '\n' || c = '\r' || c = '\x0b' || c = '\x0c' || c = '\xa0'

/-- `line.trim()`. -/
def jsTrim (l : List Char) : List Char :=
  ((l.dropWhile isJsSpace).reverse.dropWhile isJsSpace).reverse

/-- `const cleanLine = line.trim().replace(/\x1b\[[0-9;]*m/g, "")`
(`claude.ts` lines 114–116): trim first, then strip SGR sequences. -/
def cleanLine (line : List Char) : List Char := stripAnsi (jsTrim line)

/-! ## JSON values and `JSON.parse` (`claude.ts` line 160)

`JSON.parse` is embedded as a recursive-descent parser producing a `Json`
value: objects keep their fields in source order (later duplicates win on
lookup, as in JavaScript), numbers keep their lexeme. -/

inductive Json where
  | null
  | bool (b : Bool)
  | num (lexeme : String)
  | str (s : String)
  | arr (items : List Json)
  | obj (fields : List (String × Json))

/-- JSON token whitespace (space, tab, line feed, carriage return). -/
def isJsonWs (c : Char) : Bool := c = ' ' || c = '\t' || c = '\n' || c = '\r'

def skipWs (l : List Char) : List Char := l.dropWhile isJsonWs

def hexVal (c : Char) : Option Nat :=
  if c.isDigit then some (c.toNat - 48)
  else if 97 ≤ c.toNat && c.toNat ≤ 102 then some (c.toNat - 87)
  else if 65 ≤ c.toNat && c.toNat ≤ 70 then some (c.toNat - 55)
  else none

/-- JSON string body after the opening quote: unescapes the standard
escapes, rejects raw control characters, stops at the closing quote.
Returns the decoded characters and the input after the closing quote. -/
def parseStrBody : List Char → Option (List Char × List Char)
  | [] => none
  | '\x22' :: rest => some ([], rest)
  | '\\' :: e :: rest =>
    match e with
    | '\x22' => (parseStrBody rest).map (fun p => ('\x22' :: p.1, p.2))
    | '\\' => (parseStrBody rest).map (fun p => ('\\' :: p.1, p.2))
    | '/' => (parseStrBody rest).map (fun p => ('/' :: p.1, p.2))
    | 'b' => (parseStrBody rest).map (fun p => ('\x08' :: p.1, p.2))
    | 'f' => (parseStrBody rest).map (fun p => ('\x0c' :: p.1, p.2))
    | 'n' => (parseStrBody rest).map (fun p => ('\n' :: p.1, p.2))
    | 'r' => (parseStrBody rest).map (fun p => ('\r' :: p.1, p.2))
    | 't' => (parseStrBody rest).map (fun p => ('\t' :: p.1, p.2))
    | 'u' =>
      match rest with
      | h1 :: h2 :: h3 :: h4 :: rest2 =>
        match hexVal h1, hexVal h2, hexVal h3, hexVal h4 with
        | some a, some b, some c, some d =>
          (parseStrBody rest2).map
            (fun p => (Char.ofNat (((a * 16 + b) * 16 + c) * 16 + d) :: p.1, p.2))
        | _, _, _, _ => none
      | _ => none
    | _ => none
  | c :: rest =>
    if c.toNat < 32 then none
    else (parseStrBody rest).map (fun p => (c :: p.1, p.2))

/-- The digit run at the head of the input and what follows it. -/
def digitRun (l : List Char) : List Char × List Char :=
  (l.takeWhile Char.isDigit, l.dropWhile Char.isDigit)

/-- JSON number grammar: `-? (0 | [1-9][0-9]*) (. [0-9]+)? ([eE][+-]?[0-9]+)?`.
Returns the lexeme. -/
def parseNumTok (l : List Char) : Option (List Char × List Char) :=
  let (neg, l1) := match l with
    | '-' :: rest => (['-'], rest)
    | _ => (([] : List Char), l)
  match l1 with
  | [] => none
  | c :: cs =>
    if ¬ c.isDigit then none
    else
      let (ipart, l2) := if c = '0' then ([c], cs) else
        let (ds, r) := digitRun cs
        (c :: ds, r)
      let (fpart, l3) := match l2 with
        | '.' :: rest =>
          let (ds, r) := digitRun rest
          if ds.isEmpty then (([] : List Char), l2) else ('.' :: ds, r)
        | _ => (([] : List Char), l2)
      let fracOk : Bool := match l2 with
        | '.' :: rest => ¬ (digitRun rest).1.isEmpty
        | _ => true
      let (epart, l4) := match l3 with
        | e :: rest =>
          if e = 'e' ∨ e = 'E' then
            let (sgn, rest2) := match rest with
              | s :: rest3 => if s = '+' ∨ s = '-' then ([s], rest3) else (([] : List Char), rest)
              | [] => (([] : List Char), rest)
            let (ds, r) := digitRun rest2
            if ds.isEmpty then (([] : List Char), l3) else (e :: (sgn ++ ds), r)
          else (([] : List Char), l3)
        | [] => (([] : List Char), l3)
      let expOk : Bool := match l3 with
        | e :: rest =>
          if e = 'e' ∨ e = 'E' then
            let rest2 := match rest with
              | s :: rest3 => if s = '+' ∨ s = '-' then rest3 else rest
              | [] => rest
            ¬ (digitRun rest2).1.isEmpty
          else true
        | [] => true
      if fracOk && expOk then some (neg ++ ipart ++ fpart ++ epart, l4) else none

mutual

/-- One JSON value (fuel-indexed recursive descent). -/
def parseVal : Nat → List Char → Option (Json × List Char)
  | 0, _ => none
  | fuel + 1, input =>
    match skipWs input with
    | [] => none
    | 't' :: 'r' :: 'u' :: 'e' :: rest => some (Json.bool true, rest)
    | 'f' :: 'a' :: 'l' :: 's' :: 'e' :: rest => some (Json.bool false, rest)
    | 'n' :: 'u' :: 'l' :: 'l' :: rest => some (Json.null, rest)
    | '\x22' :: rest => (parseStrBody rest).map (fun p => (Json.str p.1.asString, p.2))
    | '[' :: rest =>
      (match skipWs rest with
      | ']' :: rest2 => some (Json.arr [], rest2)
      | _ => parseArrItems fuel rest)
    | '\x7b' :: rest =>
      (match skipWs rest with
      | '\x7d' :: rest2 => some (Json.obj [], rest2)
      | _ => parseObjItems fuel rest)
    | c :: rest =>
      if c = '-' || c.isDigit then
        (parseNumTok (c :: rest)).map (fun p => (Json.num p.1.asString, p.2))
      else none

/-- Comma-separated array items followed by `]`. -/
def parseArrItems : Nat → List Char → Option (Json × List Char)
  | 0, _ => none
  | fuel + 1, input =>
    match parseVal fuel input with
    | none => none
    | some (v, rest) =>
      match skipWs rest with
      | ',' :: rest2 =>
        (match parseArrItems fuel rest2 with
        | some (Json.arr vs, rest3) => some (Json.arr (v :: vs), rest3)
        | _ => none)
      | ']' :: rest2 => some (Json.arr [v], rest2)
      | _ => none

/-- Comma-separated `"key": value` pairs followed by `}`. -/
def parseObjItems : Nat → List Char → Option (Json × List Char)
  | 0, _ => none
  | fuel + 1, input =>
    match skipWs input with
    | '\x22' :: rest =>
      (match parseStrBody rest with
      | none => none
      | some (key, rest2) =>
        match skipWs rest2 with
        | ':' :: rest3 =>
          (match parseVal fuel rest3 with
          | none => none
          | some (v, rest4) =>
            match skipWs rest4 with
            | ',' :: rest5 =>
              (match parseObjItems fuel rest5 with
              | some (Json.obj fs, rest6) => some (Json.obj ((key.asString, v) :: fs), rest6)
              | _ => none)
            | '\x7d' :: rest5 => some (Json.obj [(key.asString, v)], rest5)
            | _ => none)
        | _ => none)
    | _ => none

end

/-- `JSON.parse(line)`: parse one value, require only whitespace after it;
`none` models a thrown `SyntaxError`.  The fuel `2 * length + 4` dominates
the recursion depth (each unit of nesting consumes input). -/
def jsonParse (l : List Char) : Option Json :=
  match parseVal (2 * l.length + 4) l with
  | some (v, rest) => if (skipWs rest).isEmpty then some v else none
  | none => none

/-! ## JavaScript value helpers used by the classifier -/

/-- Property access `event[key]`: defined (some) only on objects; for
duplicate keys the last occurrence wins, as in `JSON.parse`. -/
def getField (j : Json) (key : String) : Option Json :=
  match j with
  | Json.obj fields => fields.foldl (fun acc kv => if kv.1 = key then some kv.2 else acc) none
  | _ => none

/-- Does the number lexeme denote zero (mantissa has no nonzero digit)? -/
def jsNumIsZero (s : String) : Bool :=
  (s.toList.takeWhile (fun c => ¬ (c = 'e' ∨ c = 'E'))).all (fun c => !c.isDigit || c = '0')

/-- JavaScript truthiness of a JSON value. -/
def jsTruthy : Json → Bool
  | Json.null => false
  | Json.bool b => b
  | Json.num s => !jsNumIsZero s
  | Json.str s => s ≠ ""
  | Json.arr _ => true
  | Json.obj _ => true

mutual

/-- JavaScript string coercion `String(v)` of a JSON value (arrays join
their elements with commas, objects print as `[object Object]`). -/
def jsToStr : Json → String
  | Json.null => "null"
  | Json.bool true => "true"
  | Json.bool false => "false"
  | Json.num s => s
  | Json.str s => s
  | Json.arr items => String.intercalate "," (jsToStrList items)
  | Json.obj _ => "[object Object]"

def jsToStrList : List Json → List String
  | [] => []
  | v :: vs => jsToStr v :: jsToStrList vs

end

/-- `v || dflt` coerced to a string: keeps `String(v)` when `v` is truthy,
otherwise the default (covers `event.content || ""` and
`event.error || "Unknown error"`; an absent property is `undefined`,
which is falsy). -/
def jsOrStr (v : Option Json) (dflt : String) : String :=
  match v with
  | none => dflt
  | some j => if jsTruthy j then jsToStr j else dflt

def padSpaces (n : Nat) : String := String.mk (List.replicate n ' ')

def quoteStr (s : String) : String :=
  "\x22" ++ (s.toList.flatMap (fun c =>
    if c = '\x22' then ['\\', '\x22']
    else if c = '\\' then ['\\', '\\']
    else if c = '\n' then ['\\', 'n']
    else if c = '\t' then ['\\', 't']
    else if c = '\r' then ['\\', 'r']
    else [c])).asString ++ "\x22"

mutual

/-- `JSON.stringify(v, null, 2)` at the given current indentation. -/
def jsonStringifyAux : Nat → Json → String
  | _, Json.null => "null"
  | _, Json.bool true => "true"
  | _, Json.bool false => "false"
  | _, Json.num s => s
  | _, Json.str s => quoteStr s
  | _, Json.arr [] => "[]"
  | ind, Json.arr (v :: vs) =>
    "[\n" ++
      String.intercalate ",\n"
        ((jsonStringifyList (ind + 2) (v :: vs)).map (fun s => padSpaces (ind + 2) ++ s)) ++
      "\n" ++ padSpaces ind ++ "]"
  | _, Json.obj [] => "\x7b\x7d"
  | ind, Json.obj (f :: fs) =>
    "\x7b\n" ++
      String.intercalate ",\n"
        ((jsonStringifyFields (ind + 2) (f :: fs)).map (fun s => padSpaces (ind + 2) ++ s)) ++
      "\n" ++ padSpaces ind ++ "\x7d"

def jsonStringifyList : Nat → List Json → List String
  | _, [] => []
  | ind, v :: vs => jsonStringifyAux ind v :: jsonStringifyList ind vs

def jsonStringifyFields : Nat → List (String × Json) → List String
  | _, [] => []
  | ind, (k, v) :: fs =>
    (quoteStr k ++ ": " ++ jsonStringifyAux ind v) :: jsonStringifyFields ind fs

end

/-- Template interpolation of a possibly-absent property
(JavaScript renders `undefined` as the text `undefined`). -/
def fieldToStr (v : Option Json) : String :=
  match v with
  | none => "undefined"
  | some j => jsToStr j

/-- `JSON.stringify(event.tool_input, null, 2)` inside the template
(`undefined` when the property is absent). -/
def stringifyField (v : Option Json) : String :=
  match v with
  | none => "undefined"
  | some j => jsonStringifyAux 0 j

/-! ## Domain data model (`shared/types` as used by `claude.ts`)

`createdAt` / `timestamp` wall-clock fields are outside the model. -/

inductive Status where
  | idle | active | stopped | error
deriving DecidableEq

structure Session where
  id : Nat
  worktreeId : String
  worktreePath : String
  status : Status
deriving DecidableEq

inductive Role where
  | user | assistant | system
deriving DecidableEq

inductive MsgType where
  | text | tool_use | tool_result | error
deriving DecidableEq

structure Message where
  id : Nat
  sessionId : Nat
  role : Role
  content : String
  type : MsgType
deriving DecidableEq

/-- Events published on the `EventEmitter`. -/
inductive Event where
  | session_created (s : Session)
  | session_updated (s : Session)
  | session_stopped (sessionId : Nat)
  | message_received (m : Message)
  | message_stream (sessionId : Nat) (chunk : String) (type : MsgType)
  | message_complete (sessionId : Nat) (messageId : Nat)
deriving DecidableEq

/-- One step of the observable trace: an emitted event, a subprocess
spawn, or a `kill()` call. -/
inductive Act where
  | emit (e : Event)
  | spawn (pid : Nat)
  | kill (pid : Nat)
deriving DecidableEq

/-! ## The classifier `processStreamEvent` (`claude.ts` lines 158–232) -/

/-- `processStreamEvent(sessionId, line)`: `JSON.parse` the line and
dispatch on `event.type`.  A parse failure — and equally the `TypeError`
from reading `.type` of `null` — lands in the `catch` branch, which emits
the raw line as a text chunk.  Unrecognized or absent `type` values fall
through the `switch` and emit nothing.  Returns the emitted events and
the advanced fresh-id counter. -/
def processStreamEvent (nextId sessionId : Nat) (line : List Char) :
    List Event × Nat :=
  match jsonParse line with
  | none =>
    ([Event.message_stream sessionId line.asString MsgType.text], nextId)
  | some Json.null =>
    ([Event.message_stream sessionId line.asString MsgType.text], nextId)
  | some ev =>
    match getField ev "type" with
    | some (Json.str t) =>
      if t = "assistant" then
        match getField ev "subtype" with
        | some (Json.str st) =>
          if st = "text" then
            ([Event.message_stream sessionId (jsOrStr (getField ev "content") "")
                MsgType.text], nextId)
          else ([], nextId)
        | _ => ([], nextId)
      else if t = "tool_use" then
        ([Event.message_received
            ⟨nextId, sessionId, Role.assistant,
             "Using tool: " ++ fieldToStr (getField ev "tool_name") ++ "\n" ++
               stringifyField (getField ev "tool_input"),
             MsgType.tool_use⟩], nextId + 1)
      else if t = "tool_result" then
        ([Event.message_received
            ⟨nextId, sessionId, Role.system, jsOrStr (getField ev "result") "",
             MsgType.tool_result⟩], nextId + 1)
      else if t = "result" then
        ([Event.message_received
            ⟨nextId, sessionId, Role.assistant, jsOrStr (getField ev "content") "",
             MsgType.text⟩], nextId + 1)
      else if t = "error" then
        ([Event.message_received
            ⟨nextId, sessionId, Role.system,
             jsOrStr (getField ev "error") "Unknown error",
             MsgType.error⟩], nextId + 1)
      else ([], nextId)
    | _ => ([], nextId)

/-- The per-line body of the `onData` loop (`claude.ts` lines 113–120):
trim, strip SGR sequences, and classify unless the cleaned line is the
empty (falsy) string. -/
def processLine (nextId sessionId : Nat) (line : List Char) :
    List Event × Nat :=
  let clean := cleanLine line
  if clean.isEmpty then ([], nextId) else processStreamEvent nextId sessionId clean

/-- The full `for (const line of lines)` loop. -/
def processLines (nextId sessionId : Nat) : List (List Char) → List Event × Nat
  | [] => ([], nextId)
  | l :: ls =>
    let (evs, n1) := processLine nextId sessionId l
    let (evs2, n2) := processLines n1 sessionId ls
    (evs ++ evs2, n2)

/-! ## The process manager (`ClaudeProcessManager`)

State of the singleton manager plus the modelled OS: `processes` is the
`Map<string, ProcessInfo>`, `nextId` the fresh-id source for `nanoid()`
and spawned pids, `live` the set of spawned-and-not-terminated
subprocesses (an OS-level fact the code itself does not track). -/

structure ProcessInfo where
  process : Option Nat
  session : Session
  buffer : List Char
deriving DecidableEq

/-- `Map.get(sessionId)`: first match in the association list. -/
def lookupInfo : List (Nat × ProcessInfo) → Nat → Option ProcessInfo
  | [], _ => none
  | kv :: t, sid => if kv.1 = sid then some kv.2 else lookupInfo t sid

structure ManagerState where
  processes : List (Nat × ProcessInfo)
  nextId : Nat
  live : List Nat
deriving DecidableEq

def initialState : ManagerState := ⟨[], 0, []⟩

/-- Pointwise update of the entry stored under `sid` (the JS code mutates
the `ProcessInfo` object in place). -/
def updateInfo (ps : List (Nat × ProcessInfo)) (sid : Nat)
    (f : ProcessInfo → ProcessInfo) : List (Nat × ProcessInfo) :=
  ps.map (fun kv => if kv.1 = sid then (kv.1, f kv.2) else kv)

/-- `startSession(worktreeId, worktreePath)` (`claude.ts` lines 27–46). -/
def startSession (worktreeId worktreePath : String) (st : ManagerState) :
    ManagerState × List Act × Session :=
  let sessionId := st.nextId
  let session : Session := ⟨sessionId, worktreeId, worktreePath, Status.idle⟩
  ({ st with
      processes := st.processes ++ [(sessionId, ⟨none, session, []⟩)],
      nextId := st.nextId + 1 },
   [Act.emit (Event.session_created session)], session)

/-- `sendMessage(sessionId, message)` (`claude.ts` lines 49–155).
`spawnErr` models the outcome of `ptySpawn`: `none` when the spawn
succeeds (the `onData` / `onExit` callbacks are then `handleData` /
`handleExit` below), `some e` when it throws the error rendered as `e`.
`Except.error` models a thrown exception escaping `sendMessage`. -/
def sendMessage (sid : Nat) (message : String) (spawnErr : Option String)
    (st : ManagerState) : Except String (ManagerState × List Act) :=
  match lookupInfo st.processes sid with
  | none => Except.error "Session not found"
  | some info =>
    let session1 := { info.session with status := Status.active }
    let st1 := { st with
      processes := updateInfo st.processes sid (fun i => { i with session := session1 }) }
    let userMsg : Message := ⟨st1.nextId, sid, Role.user, message, MsgType.text⟩
    let st2 := { st1 with nextId := st1.nextId + 1 }
    match spawnErr with
    | none =>
      let pid := st2.nextId
      let st3 := { st2 with
        nextId := st2.nextId + 1,
        live := st2.live ++ [pid],
        processes := updateInfo st2.processes sid
          (fun i => { i with process := some pid, buffer := [] }) }
      Except.ok (st3,
        [Act.emit (Event.session_updated session1),
         Act.emit (Event.message_received userMsg),
         Act.spawn pid])
    | some e =>
      let errMsg : Message := ⟨st2.nextId, sid, Role.system,
        "Failed to start Claude Code: " ++ e, MsgType.error⟩
      let session2 := { session1 with status := Status.error }
      let st3 := { st2 with
        nextId := st2.nextId + 1,
        processes := updateInfo st2.processes sid
          (fun i => { i with session := session2 }) }
      Except.ok (st3,
        [Act.emit (Event.session_updated session1),
         Act.emit (Event.message_received userMsg),
         Act.emit (Event.message_received errMsg),
         Act.emit (Event.session_updated session2)])

/-- The `onData` callback (`claude.ts` lines 105–121): append the chunk to
the buffer, split off complete lines, keep the trailing fragment, and
classify each complete line. -/
def handleData (sid : Nat) (data : List Char) (st : ManagerState) :
    ManagerState × List Act :=
  match lookupInfo st.processes sid with
  | none => (st, [])
  | some info =>
    let buf := info.buffer ++ data
    let (lines, rem) := splitLines buf
    let (evs, n') := processLines st.nextId sid lines
    ({ st with
        nextId := n',
        processes := updateInfo st.processes sid (fun i => { i with buffer := rem }) },
     evs.map Act.emit)

/-- The `onExit` callback (`claude.ts` lines 124–138): flush any non-blank
remaining buffer through the same cleaning step, set the status from the
exit code, emit `session:updated` then `message:complete` with a freshly
generated id.  The terminated pid leaves the modelled `live` set; the
code itself leaves `info.process` and `info.buffer` untouched. -/
def handleExit (sid : Nat) (exitCode : Int) (st : ManagerState) :
    ManagerState × List Act :=
  match lookupInfo st.processes sid with
  | none => (st, [])
  | some info =>
    let (flushEvs, n1) :=
      if (jsTrim info.buffer).isEmpty then (([] : List Event), st.nextId)
      else
        let cleanBuffer := stripAnsi (jsTrim info.buffer)
        if cleanBuffer.isEmpty then (([] : List Event), st.nextId)
        else processStreamEvent st.nextId sid cleanBuffer
    let newStatus := if exitCode = 0 then Status.idle else Status.error
    let session' := { info.session with status := newStatus }
    ({ st with
        nextId := n1 + 1,
        live := (match info.process with
          | some pid => st.live.erase pid
          | none => st.live),
        processes := updateInfo st.processes sid (fun i => { i with session := session' }) },
     flushEvs.map Act.emit ++
       [Act.emit (Event.session_updated session'),
        Act.emit (Event.message_complete sid n1)])

/-- `stopSession(sessionId)` (`claude.ts` lines 235–253): no-op on an
unknown id; otherwise kill any attached process, set status `stopped`,
emit `session:stopped`, and delete the entry. -/
def stopSession (sid : Nat) (st : ManagerState) : ManagerState × List Act :=
  match lookupInfo st.processes sid with
  | none => (st, [])
  | some info =>
    let (live', killTrace) := (match info.process with
      | some pid => (st.live.erase pid, [Act.kill pid])
      | none => (st.live, ([] : List Act)))
    let st1 := { st with
      live := live',
      processes := updateInfo st.processes sid
        (fun i => { i with session := { i.session with status := Status.stopped } }) }
    let st2 := { st1 with processes := st1.processes.filter (fun kv => !decide (kv.1 = sid)) }
    (st2, killTrace ++ [Act.emit (Event.session_stopped sid)])

/-- `getSession(sessionId)` (`claude.ts` lines 256–258). -/
def getSession (sid : Nat) (st : ManagerState) : Option Session :=
  (lookupInfo st.processes sid).map ProcessInfo.session

/-- `getAllSessions()` (`claude.ts` lines 261–263). -/
def getAllSessions (st : ManagerState) : List Session :=
  st.processes.map (fun kv => kv.2.session)

/-- The loop body of `cleanup()`: stop each listed session in turn,
concatenating the traces. -/
def stopMany : List Nat → ManagerState → ManagerState × List Act
  | [], st => (st, [])
  | sid :: rest, st =>
    let r1 := stopSession sid st
    let r2 := stopMany rest r1.1
    (r2.1, r1.2 ++ r2.2)

/-- `cleanup()` (`claude.ts` lines 266–271): snapshot the key set, then
stop every session. -/
def cleanup (st : ManagerState) : ManagerState × List Act :=
  stopMany (st.processes.map (fun kv => kv.1)) st

/-! ## Claims about the classifier -/

/-- **C7.** For every non-empty cleaned line on which structured decode
fails (not well-formed JSON), the classifier emits exactly one StreamChunk
event carrying that exact line text with type Text; decode failure never
raises an error and never drops the line. -/
theorem c7_decode_failure_degrades (line : List Char) (hne : line ≠ [])
    (hfail : jsonParse line = none) (n sid : Nat) :
    processStreamEvent n sid line =
      ([Event.message_stream sid line.asString MsgType.text], n) := by
  simp [processStreamEvent, hfail]

/-- Witness for C7 at the concrete decode-failing line `hello world`. -/
theorem c7_witness :
    "hello world".toList ≠ [] ∧
    processStreamEvent 0 0 "hello world".toList =
      ([Event.message_stream 0 "hello world" MsgType.text], 0) :=
  ⟨by decide, c7_decode_failure_degrades "hello world".toList (by decide) rfl 0 0⟩

/-- **C9.** Lines that decode successfully as JSON but are not objects
carrying a recognized `type` discriminator — the number line `123` and
the JSON-string line `"hello"` — produce no event at all and are silently
dropped, whereas the same visible text failing JSON decode (`hello`)
would have been forwarded as a Text StreamChunk. -/
theorem c9_decodable_nonevent_lines_dropped :
    (jsonParse "123".toList).isSome = true
      ∧ processStreamEvent 0 0 "123".toList = ([], 0)
      ∧ (jsonParse "\x22hello\x22".toList).isSome = true
      ∧ processStreamEvent 0 0 "\x22hello\x22".toList = ([], 0)
      ∧ processStreamEvent 0 0 "hello".toList
          = ([Event.message_stream 0 "hello" MsgType.text], 0) := by
  refine ⟨rfl, by decide, rfl, by decide, by decide⟩

/-! ## Claims about ANSI cleaning (C2) -/

/-- Counterexample to C2 as stated: the line `ESC[2J` is a CSI sequence
with final letter `J`; the cleaning step does not remove it (the regex
only matches final letter `m`), and the line — consisting solely of that
sequence — produces an event rather than none. -/
theorem c2_counterexample :
    cleanLine "\x1b[2J".toList = "\x1b[2J".toList ∧
    processLine 0 0 "\x1b[2J".toList =
      ([Event.message_stream 0 "\x1b[2J" MsgType.text], 0) := by
  refine ⟨by decide, by decide⟩

/-- A trimmed line consisting solely of SGR sequences
`ESC [ <digits/semicolons> m`, one after another. -/
inductive SgrSeq : List Char → Prop
  | nil : SgrSeq []
  | seq (ps rest : List Char) (hps : ∀ c ∈ ps, isParamChar c = true)
      (h : SgrSeq rest) : SgrSeq ('\x1b' :: '[' :: (ps ++ 'm' :: rest))

theorem scanSgr_params (ps rest : List Char)
    (hps : ∀ c ∈ ps, isParamChar c = true) :
    scanSgr (ps ++ 'm' :: rest) = some rest := by
  induction ps with
  | nil => simp [scanSgr]
  | cons c cs ih =>
    have hc := hps c (List.mem_cons_self c cs)
    have hm : ¬ c = 'm' := by
      intro h; rw [h] at hc; simp [isParamChar] at hc
    simp only [List.cons_append, scanSgr, if_neg hm, if_pos hc]
    exact ih (fun d hd => hps d (List.mem_cons_of_mem c hd))

theorem stripGo_skip (l t : List Char) : stripGo l.length (l ++ t) = stripGo 0 t := by
  induction l with
  | nil => rfl
  | cons c cs ih => simpa [stripGo] using ih

theorem stripAnsi_of_sgrSeq (l : List Char) (h : SgrSeq l) : stripAnsi l = [] := by
  induction h with
  | nil => rfl
  | seq ps rest hps _ ih =>
    have hm : sgrMatch ('\x1b' :: '[' :: (ps ++ 'm' :: rest)) = some (ps.length + 3) := by
      simp [sgrMatch, scanSgr_params ps rest hps, List.length_append, List.length_cons]
      omega
    have hskip := stripGo_skip ('[' :: (ps ++ ['m'])) rest
    have hlen : ('[' :: (ps ++ ['m'])).length = ps.length + 2 := by simp
    have happ : ('[' :: (ps ++ ['m'])) ++ rest = '[' :: (ps ++ 'm' :: rest) := by simp
    rw [hlen, happ] at hskip
    calc stripAnsi ('\x1b' :: '[' :: (ps ++ 'm' :: rest))
        = stripGo (ps.length + 3 - 1) ('[' :: (ps ++ 'm' :: rest)) := by
          show stripGo 0 _ = _
          simp only [stripGo, hm]
      _ = stripGo 0 rest := by
          rw [show ps.length + 3 - 1 = ps.length + 2 from rfl]
          exact hskip
      _ = [] := ih

/-- **C2 (amended).** Only ANSI SGR sequences — CSI sequences whose
parameters are digits or semicolons and whose final letter is `m` — are
removed (after trimming); a line that after trimming consists solely of
such sequences produces no event.  (Sequences with any other final
letter are not removed, and whitespace between two sequences survives
cleaning, so only leading/trailing whitespace is allowed.) -/
theorem c2_amended_sgr_only_removed (line : List Char)
    (h : SgrSeq (jsTrim line)) (n sid : Nat) :
    processLine n sid line = ([], n) := by
  have hc : cleanLine line = [] := stripAnsi_of_sgrSeq _ h
  simp [processLine, hc]

/-- Witness for the amended C2 at the line `␣ESC[1;32mESC[0m␣`. -/
theorem c2_amended_witness :
    SgrSeq (jsTrim " \x1b[1;32m\x1b[0m ".toList) ∧
    processLine 3 7 " \x1b[1;32m\x1b[0m ".toList = ([], 3) := by
  have he : jsTrim " \x1b[1;32m\x1b[0m ".toList =
      '\x1b' :: '[' :: (['1', ';', '3', '2'] ++ 'm' ::
        ('\x1b' :: '[' :: (['0'] ++ 'm' :: []))) := by decide
  have hs : SgrSeq (jsTrim " \x1b[1;32m\x1b[0m ".toList) := by
    rw [he]
    exact SgrSeq.seq _ _ (by decide)
      (SgrSeq.seq _ _ (by decide) SgrSeq.nil)
  exact ⟨hs, c2_amended_sgr_only_removed _ hs 3 7⟩

/-! ## Claims about the engine state machine -/

/-- **C1 (violated by the code).** The claim says a `send` on an `Active`
session with a live subprocess must fail fast with `AlreadyRunning` and
never spawn a second process.  The code has no such check: after
`startSession` and a successful `sendMessage` (session 0 `Active`, pid 2
live), a second `sendMessage` returns successfully, spawns pid 4, and
leaves two live subprocesses attached to the same session's output
handling. -/
theorem c1_send_while_active_spawns_second :
    (let st0 := (startSession "wt" "/tmp/wt" initialState).1
     let st1 := ((sendMessage 0 "first" none st0).toOption.getD (initialState, [])).1
     let r2 := sendMessage 0 "second" none st1
     (getSession 0 st1).map Session.status = some Status.active
       ∧ st1.live = [2]
       ∧ r2.toOption.isSome = true
       ∧ (r2.toOption.getD (initialState, [])).1.live = [2, 4]
       ∧ Act.spawn 4 ∈ (r2.toOption.getD (initialState, [])).2) := by
  decide

/-- **C4.** With subprocess output consisting of the single line
`{"type":"result","content":"42"}` followed by EOF with exit code 0, the
engine emits exactly one InteractionMessage (role Assistant, type Text,
content `42`, id 3), then the idle status update, then exactly one
completion marker whose `messageId` (4) is freshly generated — distinct
from the message's id — and the session status becomes `Idle`. -/
theorem c4_result_line_then_eof :
    (let st0 := (startSession "wt" "/tmp/wt" initialState).1
     let st1 := ((sendMessage 0 "prompt" none st0).toOption.getD (initialState, [])).1
     let d := handleData 0 ("\x7b\x22type\x22:\x22result\x22,\x22content\x22:\x2242\x22\x7d\n".toList) st1
     let x := handleExit 0 0 d.1
     d.2 = [Act.emit (Event.message_received ⟨3, 0, Role.assistant, "42", MsgType.text⟩)]
       ∧ x.2 = [Act.emit (Event.session_updated ⟨0, "wt", "/tmp/wt", Status.idle⟩),
                Act.emit (Event.message_complete 0 4)]
       ∧ (4 : Nat) ≠ 3
       ∧ (getSession 0 x.1).map Session.status = some Status.idle) := by
  decide


/-! ### Association-list facts about the registry -/

theorem lookupInfo_updateInfo (ps : List (Nat × ProcessInfo)) (sid : Nat)
    (f : ProcessInfo → ProcessInfo) :
    lookupInfo (updateInfo ps sid f) sid = (lookupInfo ps sid).map f := by
  induction ps with
  | nil => rfl
  | cons kv t ih =>
    by_cases h : kv.1 = sid
    · simp [updateInfo, lookupInfo, h]
    · simpa [updateInfo, lookupInfo, h] using ih

theorem lookupInfo_none_keys (ps : List (Nat × ProcessInfo)) (sid : Nat)
    (h : lookupInfo ps sid = none) : ∀ kv ∈ ps, kv.1 ≠ sid := by
  induction ps with
  | nil => simp
  | cons kv t ih =>
    intro p hp
    by_cases hk : kv.1 = sid
    · simp [lookupInfo, hk] at h
    · rcases List.mem_cons.1 hp with rfl | hmem
      · exact hk
      · have ht : lookupInfo t sid = none := by simpa [lookupInfo, hk] using h
        exact ih ht p hmem

theorem filter_ne_of_lookupInfo_none (ps : List (Nat × ProcessInfo)) (sid : Nat)
    (h : lookupInfo ps sid = none) :
    ps.filter (fun kv => !decide (kv.1 = sid)) = ps := by
  apply List.filter_eq_self.2
  intro kv hkv
  simp [lookupInfo_none_keys ps sid h kv hkv]

theorem filter_updateInfo (ps : List (Nat × ProcessInfo)) (sid : Nat)
    (f : ProcessInfo → ProcessInfo) :
    (updateInfo ps sid f).filter (fun kv => !decide (kv.1 = sid)) =
      ps.filter (fun kv => !decide (kv.1 = sid)) := by
  induction ps with
  | nil => rfl
  | cons kv t ih =>
    by_cases h : kv.1 = sid
    · simpa [updateInfo, List.filter_cons, h] using ih
    · simpa [updateInfo, List.filter_cons, h] using ih

theorem lookupInfo_filter_ne_self (ps : List (Nat × ProcessInfo)) (sid : Nat) :
    lookupInfo (ps.filter (fun kv => !decide (kv.1 = sid))) sid = none := by
  induction ps with
  | nil => rfl
  | cons kv t ih =>
    by_cases h : kv.1 = sid
    · simpa [List.filter_cons, h] using ih
    · simpa [List.filter_cons, lookupInfo, h] using ih

theorem lookupInfo_filter_ne_other (ps : List (Nat × ProcessInfo)) (sid k : Nat)
    (hk : sid ≠ k) :
    lookupInfo (ps.filter (fun kv => !decide (kv.1 = k))) sid =
      lookupInfo ps sid := by
  induction ps with
  | nil => rfl
  | cons kv t ih =>
    have hks : ¬ k = sid := fun x => hk x.symm
    by_cases h : kv.1 = k
    · simpa [List.filter_cons, lookupInfo, h, hks] using ih
    · by_cases hs : kv.1 = sid
      · simp [List.filter_cons, lookupInfo, h, hs, hk]
      · simpa [List.filter_cons, lookupInfo, h, hs, hk] using ih

theorem lookupInfo_some_key_mem (ps : List (Nat × ProcessInfo)) (sid : Nat)
    (info : ProcessInfo) (h : lookupInfo ps sid = some info) :
    sid ∈ ps.map (fun kv => kv.1) := by
  induction ps with
  | nil => simp [lookupInfo] at h
  | cons kv t ih =>
    by_cases hk : kv.1 = sid
    · simp [hk]
    · have ht : lookupInfo t sid = some info := by simpa [lookupInfo, hk] using h
      simp [ih ht]

theorem stopSession_processes (sid : Nat) (st : ManagerState) :
    (stopSession sid st).1.processes =
      st.processes.filter (fun kv => !decide (kv.1 = sid)) := by
  cases h : lookupInfo st.processes sid with
  | none => simp [stopSession, h, filter_ne_of_lookupInfo_none _ _ h]
  | some info =>
    cases hp : info.process with
    | none => simp [stopSession, h, hp, filter_updateInfo]
    | some pid => simp [stopSession, h, hp, filter_updateInfo]

/-- **C5.** `stop` on an unknown session id is a silent no-op (no state
change, no event); on a registered session with a live subprocess it
kills the subprocess, emits the stop event (the status having been set to
`Stopped` on the record as it is discarded), and removes the session from
the registry so that a subsequent `get` returns nothing. -/
theorem c5_stop_kills_and_removes (st : ManagerState) (sid : Nat) :
    (lookupInfo st.processes sid = none → stopSession sid st = (st, [])) ∧
    (∀ info pid, lookupInfo st.processes sid = some info → info.process = some pid →
      getSession sid (stopSession sid st).1 = none ∧
      (stopSession sid st).1.live = st.live.erase pid ∧
      (stopSession sid st).2 = [Act.kill pid, Act.emit (Event.session_stopped sid)]) := by
  constructor
  · intro h
    simp [stopSession, h]
  · intro info pid h hp
    refine ⟨?_, ?_, ?_⟩
    · simp [getSession, stopSession_processes, lookupInfo_filter_ne_self]
    · simp [stopSession, h, hp]
    · simp [stopSession, h, hp]

/-- Witness for C5: a registry holding session 0 with live pid 2, stopped;
and a stop on the unknown id 7 as a no-op. -/
theorem c5_witness :
    (getSession 0 (stopSession 0
        (⟨[(0, ⟨some 2, ⟨0, "wt", "p", Status.active⟩, []⟩)], 3, [2]⟩ : ManagerState)).1 = none
      ∧ (stopSession 0
        (⟨[(0, ⟨some 2, ⟨0, "wt", "p", Status.active⟩, []⟩)], 3, [2]⟩ : ManagerState)).1.live
          = [2].erase 2
      ∧ (stopSession 0
        (⟨[(0, ⟨some 2, ⟨0, "wt", "p", Status.active⟩, []⟩)], 3, [2]⟩ : ManagerState)).2
          = [Act.kill 2, Act.emit (Event.session_stopped 0)])
    ∧ stopSession 7
        (⟨[(0, ⟨some 2, ⟨0, "wt", "p", Status.active⟩, []⟩)], 3, [2]⟩ : ManagerState) =
      (⟨[(0, ⟨some 2, ⟨0, "wt", "p", Status.active⟩, []⟩)], 3, [2]⟩, []) :=
  ⟨(c5_stop_kills_and_removes _ 0).2 ⟨some 2, ⟨0, "wt", "p", Status.active⟩, []⟩ 2 rfl rfl,
   (c5_stop_kills_and_removes _ 7).1 rfl⟩

/-- **C6.** For every existing session, `send(sessionId, text)` emits the
User-role InteractionMessage carrying the text synchronously — it appears
in the trace before the `spawn` of the subprocess, and subprocess output
events can only arise later, from `handleData` — and the session status
becomes `Active`. -/
theorem c6_send_emits_user_before_spawn (st : ManagerState) (sid : Nat)
    (msg : String) (info : ProcessInfo)
    (h : lookupInfo st.processes sid = some info) :
    ∃ st' : ManagerState,
      sendMessage sid msg none st =
        Except.ok (st',
          [Act.emit (Event.session_updated { info.session with status := Status.active }),
           Act.emit (Event.message_received ⟨st.nextId, sid, Role.user, msg, MsgType.text⟩),
           Act.spawn (st.nextId + 1)]) ∧
      (getSession sid st').map Session.status = some Status.active := by
  simp only [sendMessage, h]
  refine ⟨_, rfl, ?_⟩
  simp [getSession, lookupInfo_updateInfo, h]

/-- Witness for C6: a fresh idle session 0 receiving a message. -/
theorem c6_witness :
    ∃ st' : ManagerState,
      sendMessage 0 "hi" none
          (⟨[(0, ⟨none, ⟨0, "wt", "p", Status.idle⟩, []⟩)], 1, []⟩ : ManagerState) =
        Except.ok (st',
          [Act.emit (Event.session_updated ⟨0, "wt", "p", Status.active⟩),
           Act.emit (Event.message_received ⟨1, 0, Role.user, "hi", MsgType.text⟩),
           Act.spawn 2]) ∧
      (getSession 0 st').map Session.status = some Status.active :=
  c6_send_emits_user_before_spawn
    ⟨[(0, ⟨none, ⟨0, "wt", "p", Status.idle⟩, []⟩)], 1, []⟩ 0 "hi"
    ⟨none, ⟨0, "wt", "p", Status.idle⟩, []⟩ rfl

/-- **C8.** If spawning the subprocess fails, `sendMessage` emits an
Error-typed InteractionMessage synchronously, transitions the session to
`Error`, and returns normally — the exception does not propagate past the
engine boundary (the result is `Except.ok`, never `Except.error`). -/
theorem c8_spawn_failure_absorbed (st : ManagerState) (sid : Nat)
    (msg e : String) (info : ProcessInfo)
    (h : lookupInfo st.processes sid = some info) :
    ∃ st' : ManagerState,
      sendMessage sid msg (some e) st =
        Except.ok (st',
          [Act.emit (Event.session_updated { info.session with status := Status.active }),
           Act.emit (Event.message_received ⟨st.nextId, sid, Role.user, msg, MsgType.text⟩),
           Act.emit (Event.message_received ⟨st.nextId + 1, sid, Role.system,
             "Failed to start Claude Code: " ++ e, MsgType.error⟩),
           Act.emit (Event.session_updated { info.session with status := Status.error })]) ∧
      (getSession sid st').map Session.status = some Status.error := by
  simp only [sendMessage, h]
  refine ⟨_, rfl, ?_⟩
  simp [getSession, lookupInfo_updateInfo, h]

/-- Witness for C8: spawn failure (`ENOENT`) on the fresh session 0. -/
theorem c8_witness :
    ∃ st' : ManagerState,
      sendMessage 0 "hi" (some "Error: spawn claude ENOENT")
          (⟨[(0, ⟨none, ⟨0, "wt", "p", Status.idle⟩, []⟩)], 1, []⟩ : ManagerState) =
        Except.ok (st',
          [Act.emit (Event.session_updated ⟨0, "wt", "p", Status.active⟩),
           Act.emit (Event.message_received ⟨1, 0, Role.user, "hi", MsgType.text⟩),
           Act.emit (Event.message_received ⟨2, 0, Role.system,
             "Failed to start Claude Code: Error: spawn claude ENOENT", MsgType.error⟩),
           Act.emit (Event.session_updated ⟨0, "wt", "p", Status.error⟩)]) ∧
      (getSession 0 st').map Session.status = some Status.error :=
  c8_spawn_failure_absorbed
    ⟨[(0, ⟨none, ⟨0, "wt", "p", Status.idle⟩, []⟩)], 1, []⟩ 0 "hi"
    "Error: spawn claude ENOENT" ⟨none, ⟨0, "wt", "p", Status.idle⟩, []⟩ rfl

theorem stopMany_processes_nil (ks : List Nat) (st : ManagerState)
    (h : ∀ kv ∈ st.processes, kv.1 ∈ ks) : (stopMany ks st).1.processes = [] := by
  induction ks generalizing st with
  | nil =>
    have hp : st.processes = [] :=
      List.eq_nil_iff_forall_not_mem.2 (fun kv hkv => by simpa using h kv hkv)
    simp [stopMany, hp]
  | cons k ks ih =>
    simp only [stopMany]
    apply ih
    intro kv hkv
    rw [stopSession_processes] at hkv
    have hb := List.of_mem_filter hkv
    have hmem := List.mem_of_mem_filter hkv
    have hk := h kv hmem
    rcases List.mem_cons.1 hk with h1 | h1
    · exact absurd h1 (by simpa using hb)
    · exact h1

theorem stopMany_trace_mem (ks : List Nat) :
    ∀ (st : ManagerState) (sid : Nat) (info : ProcessInfo),
      sid ∈ ks → lookupInfo st.processes sid = some info →
      Act.emit (Event.session_stopped sid) ∈ (stopMany ks st).2 ∧
      (∀ pid, info.process = some pid → Act.kill pid ∈ (stopMany ks st).2) := by
  induction ks with
  | nil =>
    intro st sid info hk _
    simp at hk
  | cons k ks ih =>
    intro st sid info hk h
    by_cases hks : k = sid
    · subst hks
      constructor
      · have hm : Act.emit (Event.session_stopped k) ∈ (stopSession k st).2 := by
          cases hp : info.process <;> simp [stopSession, h, hp]
        simp only [stopMany, List.mem_append]
        exact Or.inl hm
      · intro pid hp
        have hm : Act.kill pid ∈ (stopSession k st).2 := by
          simp [stopSession, h, hp]
        simp only [stopMany, List.mem_append]
        exact Or.inl hm
    · have hmem : sid ∈ ks := by
        rcases List.mem_cons.1 hk with h1 | h1
        · exact absurd h1.symm hks
        · exact h1
      have hlook : lookupInfo (stopSession k st).1.processes sid = some info := by
        rw [stopSession_processes,
          lookupInfo_filter_ne_other _ _ _ (fun x => hks x.symm)]
        exact h
      have hih := ih (stopSession k st).1 sid info hmem hlook
      refine ⟨?_, fun pid hp => ?_⟩
      · simp only [stopMany, List.mem_append]
        exact Or.inr hih.1
      · simp only [stopMany, List.mem_append]
        exact Or.inr (hih.2 pid hp)

/-- **C10.** After `cleanup()` the registry is empty — `getAllSessions`
returns the empty list and `getSession` finds nothing — and for every
session that was registered beforehand a stop event was emitted and, if
it had a live subprocess attached, a `kill` was issued. -/
theorem c10_cleanup_empties_registry (st : ManagerState) :
    (cleanup st).1.processes = [] ∧
    getAllSessions (cleanup st).1 = [] ∧
    (∀ sid, getSession sid (cleanup st).1 = none) ∧
    (∀ sid info, lookupInfo st.processes sid = some info →
      Act.emit (Event.session_stopped sid) ∈ (cleanup st).2 ∧
      ∀ pid, info.process = some pid → Act.kill pid ∈ (cleanup st).2) := by
  have hempty : (cleanup st).1.processes = [] := by
    apply stopMany_processes_nil
    intro kv hkv
    exact List.mem_map_of_mem (fun kv => kv.1) hkv
  refine ⟨hempty, ?_, ?_, ?_⟩
  · simp [getAllSessions, hempty]
  · intro sid
    simp [getSession, hempty, lookupInfo]
  · intro sid info h
    exact stopMany_trace_mem _ st sid info
      (lookupInfo_some_key_mem st.processes sid info h) h

/-- Witness for C10: one registered session (id 0) with live pid 2. -/
theorem c10_witness :
    (cleanup (⟨[(0, ⟨some 2, ⟨0, "wt", "p", Status.active⟩, []⟩)], 3, [2]⟩ :
        ManagerState)).1.processes = []
      ∧ getAllSessions (cleanup
          (⟨[(0, ⟨some 2, ⟨0, "wt", "p", Status.active⟩, []⟩)], 3, [2]⟩ :
            ManagerState)).1 = []
      ∧ getSession 0 (cleanup
          (⟨[(0, ⟨some 2, ⟨0, "wt", "p", Status.active⟩, []⟩)], 3, [2]⟩ :
            ManagerState)).1 = none
      ∧ Act.emit (Event.session_stopped 0) ∈ (cleanup
          (⟨[(0, ⟨some 2, ⟨0, "wt", "p", Status.active⟩, []⟩)], 3, [2]⟩ :
            ManagerState)).2
      ∧ Act.kill 2 ∈ (cleanup
          (⟨[(0, ⟨some 2, ⟨0, "wt", "p", Status.active⟩, []⟩)], 3, [2]⟩ :
            ManagerState)).2 := by
  have h := c10_cleanup_empties_registry
    ⟨[(0, ⟨some 2, ⟨0, "wt", "p", Status.active⟩, []⟩)], 3, [2]⟩
  have h4 := h.2.2.2 0 ⟨some 2, ⟨0, "wt", "p", Status.active⟩, []⟩ rfl
  exact ⟨h.1, h.2.1, h.2.2.1 0, h4.1, h4.2 2 rfl⟩
